import Mathlib

/-!
Shallow embedding of the v8-coverage-collector core (src/index.ts).

The repository source is a single TypeScript module containing the class
V8CoverageCollector in two copies — an undocumented copy whose
collectCoverage returns a computed-key object literal, and a documented
copy whose collectCoverage returns a record with the named fields
testKey and coveredFiles — plus an integration test.  The helper methods
testKey, coveredFiles, enable, disable, startPreciseCoverage,
stopPreciseCoverage and takePreciseCoverage are textually identical
between the two copies, so each is embedded once.

The platform facilities the source calls (the WHATWG URL parser used by
URL.canParse and the URL constructor, fileURLToPath from the url module,
and relative from the path module) are modelled executably below for the
POSIX path flavour.  All string manipulation is done on the underlying
character lists so that every definition evaluates by kernel reduction.
-/

/-! ### Character and string helpers -/

/-- Substring membership test, modelling the includes method of
JavaScript strings: true when pat occurs contiguously in s. -/
def includesSubstr (s pat : String) : Bool :=
  decide (pat.data <:+: s.data)

/-- Boolean test that pre is a leading run of s, modelling a startsWith
check on the character level. -/
def charsLeads : List Char → List Char → Bool
  | [], _ => true
  | _ :: _, [] => false
  | a :: as, b :: bs => if a = b then charsLeads as bs else false

/-- String version of charsLeads: s begins with pre. -/
def strLeads (s pre : String) : Bool :=
  charsLeads pre.data s.data

/-- Split a character list on a separator character; adjacent separators
and an empty input yield empty pieces, as the JavaScript split does. -/
def splitOnChar (sep : Char) : List Char → List (List Char)
  | [] => [[]]
  | c :: rest =>
    let r := splitOnChar sep rest
    if c = sep then [] :: r
    else
      match r with
      | cur :: tail => (c :: cur) :: tail
      | [] => [[c]]

/-- Join string pieces with a single slash between consecutive pieces,
modelling the join performed by the platform path facilities. -/
def joinSegs : List String → String
  | [] => ""
  | [s] => s
  | s :: rest => s ++ "/" ++ joinSegs rest

/-- Numeric value of one hexadecimal digit character. -/
def hexVal (c : Char) : Nat :=
  if c.isDigit then c.toNat - 48 else c.toLower.toNat - 87

/-- Test for a hexadecimal digit character. -/
def isHexDigitChar (c : Char) : Bool :=
  c.isDigit || decide ('a' ≤ c ∧ c ≤ 'f') || decide ('A' ≤ c ∧ c ≤ 'F')

/-- Percent-decoding of a character list: each %XX triple with two hex
digits becomes the character with that code, anything else is kept.
This models the decoding performed by fileURLToPath for the code points
exercised here; multi-byte UTF-8 sequences are out of scope. -/
def percentDecode : List Char → List Char
  | [] => []
  | '%' :: a :: b :: rest =>
    if isHexDigitChar a && isHexDigitChar b then
      Char.ofNat (16 * hexVal a + hexVal b) :: percentDecode rest
    else
      '%' :: percentDecode (a :: b :: rest)
  | c :: rest => c :: percentDecode rest

/-! ### Model of the WHATWG URL parser

Only the observations the source makes of a parsed URL are modelled:
the protocol (scheme plus a trailing colon), the host, and the pathname.
For the file scheme the authority and path are parsed and dot segments
are normalised; for every other scheme the pathname is kept opaque,
which is enough because the source only inspects pathnames of file
URLs.  Tabs and newlines are removed and surrounding control characters
and spaces are stripped, as the WHATWG parser does. -/

structure URL where
  protocol : String
  host : String
  pathname : String
deriving Repr, DecidableEq

/-- Remove tab, line feed and carriage return everywhere and strip
leading and trailing C0 controls and spaces, as URL parsing does before
interpreting its input. -/
def cleanupChars (l : List Char) : List Char :=
  let l := l.filter (fun c => !(c = '\t' || c = '\n' || c = '\r'))
  (((l.dropWhile (fun c => c.toNat ≤ 32)).reverse.dropWhile
      (fun c => c.toNat ≤ 32)).reverse)

/-- Characters allowed after the first character of a URL scheme. -/
def isSchemeChar (c : Char) : Bool :=
  c.isAlphanum || c = '+' || c = '-' || c = '.'

/-- A valid URL scheme: one alphabetic character followed by
alphanumerics, plus, minus or dot. -/
def validScheme : List Char → Bool
  | [] => false
  | c :: cs => c.isAlpha && cs.all isSchemeChar

/-- Split the input at the first colon into scheme and remainder;
none when no colon occurs, in which case the URL cannot be parsed. -/
def splitScheme (l : List Char) : Option (List Char × List Char) :=
  match l.findIdx? (· = ':') with
  | none => none
  | some i => some (l.take i, l.drop (i + 1))

/-- Dot-segment normalisation of a file-URL path: a single-dot segment
is dropped and a double-dot segment removes the previous segment, as the
WHATWG path state machine does for special schemes. -/
def dotNorm (segs : List (List Char)) : List (List Char) :=
  segs.foldl
    (fun acc seg =>
      if seg = ['.'] then acc
      else if seg = ['.', '.'] then acc.dropLast
      else acc ++ [seg])
    []

/-- Rebuild an absolute pathname from its pieces. -/
def joinPathChars (segs : List (List Char)) : List Char :=
  '/' :: (segs.intersperse ['/']).flatten

/-- Parse the remainder of a file URL after the scheme and colon:
zero or one leading slash gives an empty host and the remainder as the
path; two or more give an authority whose host runs to the next slash.
Backslashes count as slashes and the query and fragment are cut off,
as in the WHATWG parser for special schemes. -/
def parseFileRest (rest : List Char) : URL :=
  let rest := (rest.takeWhile (fun c => !(c = '?' || c = '#'))).map
    (fun c => if c = '\\' then '/' else c)
  match rest with
  | '/' :: '/' :: after =>
    let host := after.takeWhile (fun c => !(c = '/'))
    let tail := after.dropWhile (fun c => !(c = '/'))
    let path := if tail.isEmpty then ['/'] else tail
    ⟨"file:", String.mk (host.map Char.toLower),
      String.mk (joinPathChars (dotNorm (splitOnChar '/' (path.drop 1))))⟩
  | _ =>
    let path :=
      match rest with
      | '/' :: _ => rest
      | _ => '/' :: rest
    ⟨"file:", "",
      String.mk (joinPathChars (dotNorm (splitOnChar '/' (path.drop 1))))⟩

/-- Model of WHATWG URL parsing as observed by the source: none exactly
when the URL constructor would throw (no colon, or an invalid scheme);
otherwise the protocol, host and pathname of the parsed URL.  Schemes
are lowercased.  Non-file URLs keep their remainder as an opaque
pathname cut at the query or fragment, which is faithful for the
scheme-only observations the source makes of them. -/
def URL.parseModel (s : String) : Option URL :=
  match splitScheme (cleanupChars s.data) with
  | none => none
  | some (sch, rest) =>
    if validScheme sch then
      let scheme := String.mk (sch.map Char.toLower)
      if scheme = "file" then some (parseFileRest rest)
      else
        some ⟨scheme ++ ":", "",
          String.mk (rest.takeWhile (fun c => !(c = '?' || c = '#')))⟩
    else none

/-- Model of URL.canParse: true exactly when parsing succeeds. -/
def URL.canParseModel (s : String) : Bool :=
  (URL.parseModel s).isSome

/-! ### Model of fileURLToPath and of path relativization -/

/-- Model of fileURLToPath on POSIX: rejects non-file URLs, hosts other
than empty or localhost, and encoded slashes in the path, as the node
url module does, and otherwise yields the percent-decoded pathname. -/
def fileURLToPath (s : String) : Except String String :=
  match URL.parseModel s with
  | none => .error "Invalid URL"
  | some u =>
    if u.protocol ≠ "file:" then .error "The URL must be of scheme file"
    else if u.host ≠ "" ∧ u.host ≠ "localhost" then
      .error "File URL host must be empty or localhost"
    else if includesSubstr (String.mk (u.pathname.data.map Char.toLower)) "%2f" then
      .error "File URL path must not include encoded / characters"
    else .ok (String.mk (percentDecode u.pathname.data))

/-- Nonempty slash-separated pieces of a path string. -/
def splitSegs (p : String) : List String :=
  ((splitOnChar '/' p.data).map String.mk).filter (fun s => s ≠ "")

/-- Resolution of dot and double-dot pieces of an absolute path. -/
def normResolve (segs : List String) : List String :=
  segs.foldl
    (fun acc seg =>
      if seg = "." then acc
      else if seg = ".." then acc.dropLast
      else acc ++ [seg])
    []

/-- Segments of the absolute resolution of p: an absolute path stands
alone, a relative path is resolved against the ambient working
directory cwd of the process, as the path module resolve does. -/
def resolveSegs (cwd p : String) : List String :=
  if strLeads p "/" then normResolve (splitSegs p)
  else normResolve (splitSegs cwd ++ splitSegs p)

/-- Length of the longest common leading run of two segment lists. -/
def commonLen : List String → List String → Nat
  | a :: as, b :: bs => if a = b then commonLen as bs + 1 else 0
  | _, _ => 0

/-- Boolean test that a is a leading run of b, on path segments. -/
def segsLeads : List String → List String → Bool
  | [], _ => true
  | _ :: _, [] => false
  | a :: as, b :: bs => if a = b then segsLeads as bs else false

/-- Model of relative from the path module on POSIX: both arguments are
resolved against the ambient working directory cwd, the common leading
segments are dropped, and the result climbs out of the remaining source
segments before descending into the remaining target segments. -/
def nodeRelative (cwd src dst : String) : String :=
  let f := resolveSegs cwd src
  let t := resolveSegs cwd dst
  let k := commonLen f t
  joinSegs (List.replicate (f.length - k) ".." ++ t.drop k)

/-- True when the resolved path p does not lie inside the tree rooted at
the resolved working directory wd. -/
def outsideWd (cwd wd p : String) : Bool :=
  !(segsLeads (resolveSegs cwd wd) (resolveSegs cwd p))

/-! ### Decidable equality for results -/

/-- Decidable equality for the Except results of the embedded fallible
operations, so that concrete runs can be checked by evaluation. -/
instance exceptDecEq {ε α : Type} [DecidableEq ε] [DecidableEq α] :
    DecidableEq (Except ε α) := fun a b =>
  match a, b with
  | .error e₁, .error e₂ =>
    if h : e₁ = e₂ then .isTrue (by rw [h]) else .isFalse (by simp [h])
  | .error _, .ok _ => .isFalse (by simp)
  | .ok _, .error _ => .isFalse (by simp)
  | .ok v₁, .ok v₂ =>
    if h : v₁ = v₂ then .isTrue (by rw [h]) else .isFalse (by simp [h])

/-! ### The data model of the collector -/

/-- One raw snapshot entry, from the V8ScriptCoverage interface of the
source: an opaque script identifier, the script url, and opaque
per-function detail that the core never reads because detailed tracking
is disabled. -/
structure V8ScriptCoverage where
  scriptId : String
  url : String
  functions : List Unit
deriving Repr, DecidableEq

/-- The documented TestCoverage interface of the source: the testKey
identifier of the test and the covered files relative to the working
directory. -/
structure TestCoverage where
  testKey : String
  coveredFiles : List String
deriving Repr, DecidableEq

/-- The filter predicate of the coveredFiles method, translated from
the source: the url must parse (the canParse guard makes the value
truthy), the protocol of the parsed URL must be the file scheme, and
the pathname must not include node_modules as a substring. -/
def urlPasses (s : String) : Bool :=
  match URL.parseModel s with
  | some u => u.protocol == "file:" && !(includesSubstr u.pathname "node_modules")
  | none => false

/-- Left-to-right effectful map over a list in the Except monad,
modelling the array map of the source in which a thrown conversion
error aborts the whole computation at the first failing element. -/
def mapExcept {α β ε : Type} (f : α → Except ε β) : List α → Except ε (List β)
  | [] => .ok []
  | a :: as => (f a).bind (fun b => (mapExcept f as).map (fun bs => b :: bs))

/-- The coveredFiles method of the source: map each record to its url,
keep the urls passing the filter, and convert each survivor to a path
relative to the working directory wd.  The ambient process working
directory cwd is consulted by the platform relativization. -/
def coveredFiles (cwd wd : String) (result : List V8ScriptCoverage) :
    Except String (List String) :=
  mapExcept (fun url => (fileURLToPath url).map (fun p => nodeRelative cwd wd p))
    ((result.map (fun s => s.url)).filter urlPasses)

/-- The testKey method of the source: the path of the test file
relative to the working directory, two colons, the test name, and the
run phase tag. -/
def testKey (cwd wd testFile testName : String) : String :=
  nodeRelative cwd wd testFile ++ "::" ++ testName ++ "|run"

/-- The collectCoverage method of the documented copy of the source,
applied to the snapshot returned by the collaborator: builds the
TestCoverage record from the testKey and the covered files. -/
def collectCoverage (cwd wd testFile testName : String)
    (snapshot : List V8ScriptCoverage) : Except String TestCoverage :=
  (coveredFiles cwd wd snapshot).map
    (fun files => ⟨testKey cwd wd testFile testName, files⟩)

/-- The collectCoverage method of the undocumented copy of the source,
whose result is the computed-key object literal keyed by the testKey:
modelled as a single-entry map from key strings to file lists.  The
helpers it calls are identical to those of the documented copy. -/
def collectCoverageV0 (cwd wd testFile testName : String)
    (snapshot : List V8ScriptCoverage) : Except String (List (String × List String)) :=
  (coveredFiles cwd wd snapshot).map
    (fun files => [(testKey cwd wd testFile testName, files)])

/-! ### JavaScript object views of the two result shapes

To compare the two copies of collectCoverage, whose results have
different types, both results are encoded as the string-keyed object
they denote in the host language. -/

/-- A JavaScript value appearing in either result object: a string or
an array of strings. -/
inductive JsValue where
  | str : String → JsValue
  | arr : List String → JsValue
deriving Repr, DecidableEq

/-- Object view of the undocumented result: each map entry is a
property whose name is the key and whose value is the file array. -/
def jsOfMap (m : List (String × List String)) : List (String × JsValue) :=
  m.map (fun kv => (kv.1, JsValue.arr kv.2))

/-- Object view of the documented result: a property named testKey
holding the key string and a property named coveredFiles holding the
file array. -/
def jsOfTestCoverage (r : TestCoverage) : List (String × JsValue) :=
  [("testKey", JsValue.str r.testKey), ("coveredFiles", JsValue.arr r.coveredFiles)]

/-! ### Session traces

The lifecycle methods perform awaited collaborator round-trips over one
connection; each method is embedded as the ordered trace of interaction
events it issues.  Position in the trace is temporal order, because
every request of the source is awaited before the next is issued. -/

/-- Configuration carried by the start-continuous-coverage request, from
the parameter object of the source. -/
structure PreciseCoverageParams where
  callCount : Bool
  detailed : Bool
deriving Repr, DecidableEq

/-- One interaction of a session with the collaborator: opening the
connection, a posted request with its optional parameters, or closing
the connection. -/
inductive SessionEvent where
  | connect : SessionEvent
  | post : String → Option PreciseCoverageParams → SessionEvent
  | disconnect : SessionEvent
deriving Repr, DecidableEq

/-- Trace of the enable method: one Profiler.enable request. -/
def enableEvents : List SessionEvent :=
  [SessionEvent.post "Profiler.enable" none]

/-- Trace of the disable method: one Profiler.disable request. -/
def disableEvents : List SessionEvent :=
  [SessionEvent.post "Profiler.disable" none]

/-- Trace of the startPreciseCoverage method: one request carrying the
call-count and detail configuration of the source. -/
def startPreciseCoverageEvents : List SessionEvent :=
  [SessionEvent.post "Profiler.startPreciseCoverage" (some ⟨true, false⟩)]

/-- Trace of the stopPreciseCoverage method: one request. -/
def stopPreciseCoverageEvents : List SessionEvent :=
  [SessionEvent.post "Profiler.stopPreciseCoverage" none]

/-- Trace of the takePreciseCoverage method: one request, whose reply
carries the snapshot. -/
def takePreciseCoverageEvents : List SessionEvent :=
  [SessionEvent.post "Profiler.takePreciseCoverage" none]

/-- Trace of the connect method: open the session connection, then the
enable round-trip, then the start round-trip, in source order. -/
def connectEvents : List SessionEvent :=
  SessionEvent.connect :: (enableEvents ++ startPreciseCoverageEvents)

/-- Trace of the disconnect method: the stop round-trip, then the
disable round-trip, then closing the session connection. -/
def disconnectEvents : List SessionEvent :=
  stopPreciseCoverageEvents ++ disableEvents ++ [SessionEvent.disconnect]

/-- A run of the resetCoverage method given the snapshot the
collaborator replies with: the returned value and the issued trace.
The reply is bound by takePreciseCoverage and then dropped. -/
def resetCoverageRun (_reply : List V8ScriptCoverage) :
    Unit × List SessionEvent :=
  ((), takePreciseCoverageEvents)

/-- Classification of a session event by which collaborator facility it
touches: the connection itself, the profiling subsystem, or coverage
instrumentation. -/
inductive SessionStep where
  | connection : SessionStep
  | profiling : SessionStep
  | coverage : SessionStep
deriving Repr, DecidableEq

/-- The facility an event touches. -/
def stepOf : SessionEvent → SessionStep
  | SessionEvent.connect => SessionStep.connection
  | SessionEvent.disconnect => SessionStep.connection
  | SessionEvent.post m _ =>
    if m = "Profiler.enable" ∨ m = "Profiler.disable" then SessionStep.profiling
    else SessionStep.coverage

/-- Path segments of a pathname: the nonempty pieces between slashes.
Used to state the segment-based reading of the filter found in the
specification. -/
def pathSegments (p : String) : List String :=
  ((splitOnChar '/' p.data).map String.mk).filter (fun s => s ≠ "")

/-- The segment-based inclusion condition as the specification states
it: the url parses, its scheme is file, and no path segment of its
pathname equals node_modules. -/
def specSegmentIncluded (s : String) : Prop :=
  ∃ u, URL.parseModel s = some u ∧ u.protocol = "file:" ∧
    "node_modules" ∉ pathSegments u.pathname

/-! ### Helper lemmas -/

/-- Effectful map distributes over append: run the left part, then the
right part, then concatenate, failing as soon as either part fails. -/
theorem mapExcept_append {α β ε : Type} (f : α → Except ε β) (l₁ l₂ : List α) :
    mapExcept f (l₁ ++ l₂) =
      (mapExcept f l₁).bind (fun a => (mapExcept f l₂).map (fun b => a ++ b)) := by
  induction l₁ with
  | nil =>
    cases h : mapExcept f l₂ <;> simp [mapExcept, h, Except.bind, Except.map]
  | cons a as ih =>
    cases hfa : f a with
    | error e => simp [mapExcept, hfa, Except.bind]
    | ok b =>
      cases has : mapExcept f as with
      | error e =>
        cases h₂ : mapExcept f l₂ <;>
          simp [mapExcept, hfa, has, ih, Except.bind, Except.map, h₂]
      | ok bs =>
        cases h₂ : mapExcept f l₂ <;>
          simp [mapExcept, hfa, has, ih, Except.bind, Except.map, h₂]

/-- The covered files of a concatenated snapshot are the covered files
of the parts, concatenated, with the error of the earliest failing
conversion propagated. -/
theorem coveredFiles_append (cwd wd : String) (s₁ s₂ : List V8ScriptCoverage) :
    coveredFiles cwd wd (s₁ ++ s₂) =
      (coveredFiles cwd wd s₁).bind
        (fun a => (coveredFiles cwd wd s₂).map (fun b => a ++ b)) := by
  unfold coveredFiles
  rw [List.map_append, List.filter_append, mapExcept_append]

/-- The covered files of a snapshot beginning with one record: when the
record passes the filter its converted path is prepended, otherwise the
record contributes nothing. -/
theorem coveredFiles_cons (cwd wd : String) (r : V8ScriptCoverage)
    (s : List V8ScriptCoverage) :
    coveredFiles cwd wd (r :: s) =
      if urlPasses r.url then
        (fileURLToPath r.url).bind
          (fun p => (coveredFiles cwd wd s).map
            (fun fs => nodeRelative cwd wd p :: fs))
      else coveredFiles cwd wd s := by
  unfold coveredFiles
  rw [List.map_cons, List.filter_cons]
  by_cases h : urlPasses r.url
  · rw [if_pos h, if_pos h]
    cases hc : fileURLToPath r.url <;>
      simp [mapExcept, hc, Except.bind, Except.map]
  · rw [if_neg h, if_neg h]

/-- Characters of an appended string. -/
theorem strData_append (a b : String) : (a ++ b).data = a.data ++ b.data := rfl

/-- A nonempty join whose first piece is a double dot is either the
double dot alone or begins with a double dot and a slash. -/
theorem joinSegs_dotdot (xs : List String) :
    joinSegs (".." :: xs) = ".." ∨ strLeads (joinSegs (".." :: xs)) "../" = true := by
  cases xs with
  | nil => exact Or.inl rfl
  | cons y ys =>
    refine Or.inr ?_
    have h : joinSegs (".." :: y :: ys) = ".." ++ "/" ++ joinSegs (y :: ys) := rfl
    rw [h]
    show charsLeads ("../").data (".." ++ "/" ++ joinSegs (y :: ys)).data = true
    rw [strData_append, strData_append]
    simp [charsLeads]

/-- When one segment list is not a leading run of another, their common
leading run is strictly shorter than the first list. -/
theorem commonLen_lt_of_not_leads (a b : List String) (h : segsLeads a b = false) :
    commonLen a b < a.length := by
  induction a generalizing b with
  | nil => simp [segsLeads] at h
  | cons x xs ih =>
    cases b with
    | nil => simp [commonLen]
    | cons y ys =>
      by_cases hxy : x = y
      · subst hxy
        have h' : segsLeads xs ys = false := by simpa [segsLeads] using h
        have := ih ys h'
        simp [commonLen]
        omega
      · simp [commonLen, hxy]

/-- The relative path from the working directory to a path outside its
tree is the double dot alone or begins with a double dot and slash. -/
theorem relative_outside (cwd wd p : String) (h : outsideWd cwd wd p = true) :
    nodeRelative cwd wd p = ".." ∨ strLeads (nodeRelative cwd wd p) "../" = true := by
  have hlt : commonLen (resolveSegs cwd wd) (resolveSegs cwd p) <
      (resolveSegs cwd wd).length := by
    apply commonLen_lt_of_not_leads
    unfold outsideWd at h
    cases hb : segsLeads (resolveSegs cwd wd) (resolveSegs cwd p)
    · rfl
    · rw [hb] at h; exact absurd h (by decide)
  have hsz : (resolveSegs cwd wd).length -
      commonLen (resolveSegs cwd wd) (resolveSegs cwd p) =
      ((resolveSegs cwd wd).length -
       commonLen (resolveSegs cwd wd) (resolveSegs cwd p) - 1) + 1 := by omega
  simp only [nodeRelative]
  rw [hsz, List.replicate_succ, List.cons_append]
  exact joinSegs_dotdot _

/-! ### Claims about the session traces and the two result shapes -/

/-- C7: every run of connect opens the connection, then issues the
enable-profiling request, then the start-continuous-coverage request
carrying exactly the configuration of call-count tracking on and
detailed function tracking off; the trace order shows the start request
is issued only after the awaited enable request completed. -/
theorem claim7_connect_order :
    connectEvents =
      [SessionEvent.connect, SessionEvent.post "Profiler.enable" none,
       SessionEvent.post "Profiler.startPreciseCoverage" (some ⟨true, false⟩)] ∧
    connectEvents.map stepOf =
      [SessionStep.connection, SessionStep.profiling, SessionStep.coverage] := by
  exact ⟨rfl, by decide⟩

/-- C8: every run of disconnect issues the stop-continuous-coverage
request, then the disable-profiling request, then closes the
connection, and the facilities touched are exactly the reverse of
those touched by connect. -/
theorem claim8_disconnect_inverse :
    disconnectEvents =
      [SessionEvent.post "Profiler.stopPreciseCoverage" none,
       SessionEvent.post "Profiler.disable" none, SessionEvent.disconnect] ∧
    disconnectEvents.map stepOf = (connectEvents.map stepOf).reverse := by
  exact ⟨rfl, by decide⟩

/-- C9: every run of resetCoverage issues exactly the single
take-snapshot request, no other collaborator request, returns the unit
value to the caller, and its outcome does not depend on the snapshot
the collaborator replies with, which is therefore discarded. -/
theorem claim9_reset_take_only (reply : List V8ScriptCoverage) :
    resetCoverageRun reply =
      ((), [SessionEvent.post "Profiler.takePreciseCoverage" none]) := rfl

/-- C10 counterexample: at a concrete input the two copies of
collectCoverage do not return equal results: as string-keyed objects,
the undocumented copy yields one property named by the testKey value
while the documented copy yields the two fixed properties. -/
theorem claim10_shape_cex :
    (collectCoverageV0 "/" "/repo" "/repo/foo.ts" "t" []).map jsOfMap ≠
      (collectCoverage "/" "/repo" "/repo/foo.ts" "t" []).map jsOfTestCoverage := by
  decide

/-- C10 amended: the two copies of collectCoverage compute identical
testKey strings and identical covered-file lists and fail identically;
they differ only in packaging, the undocumented copy returning the
single-entry map from the testKey to the file list. -/
theorem claim10_repackaging (cwd wd testFile testName : String)
    (snap : List V8ScriptCoverage) :
    collectCoverageV0 cwd wd testFile testName snap =
      (collectCoverage cwd wd testFile testName snap).map
        (fun r => [(r.testKey, r.coveredFiles)]) := by
  unfold collectCoverageV0 collectCoverage
  cases coveredFiles cwd wd snap <;> rfl

/-! ### Claims about the snapshot-to-file-list reduction -/

/-- C1 counterexample: a record whose url parses as a file URI with no
path segment equal to node_modules, yet which contributes nothing to
coveredFiles, because the source tests for node_modules as a substring
of the pathname, not as a whole segment. -/
theorem claim1_segment_cex :
    specSegmentIncluded "file:///repo/node_modulesx/lib.js" ∧
    coveredFiles "/repo" "/repo"
      [⟨"1", "file:///repo/node_modulesx/lib.js", []⟩] = Except.ok [] := by
  constructor
  · exact ⟨⟨"file:", "", "/repo/node_modulesx/lib.js"⟩, by decide, rfl, by decide⟩
  · decide

/-- C1 amended: a record contributes an entry to coveredFiles if and
only if its url parses as a URI, the scheme is file, and the pathname
does not contain node_modules as a substring; every record failing any
of the three conditions contributes nothing, and the contributing urls
are converted in snapshot order. -/
theorem claim1_filter_substring (cwd wd : String) (snap : List V8ScriptCoverage) :
    coveredFiles cwd wd snap =
      mapExcept (fun url => (fileURLToPath url).map (fun p => nodeRelative cwd wd p))
        (snap.filterMap (fun r =>
          match URL.parseModel r.url with
          | some u =>
            if u.protocol = "file:" ∧ includesSubstr u.pathname "node_modules" = false
            then some r.url else none
          | none => none)) := by
  unfold coveredFiles
  congr 1
  induction snap with
  | nil => rfl
  | cons r rest ih =>
    rw [List.map_cons, List.filter_cons, List.filterMap_cons]
    cases h : URL.parseModel r.url with
    | none =>
      have hp : urlPasses r.url = false := by simp [urlPasses, h]
      simp [hp, h, ih]
    | some u =>
      by_cases hf : u.protocol = "file:" ∧ includesSubstr u.pathname "node_modules" = false
      · have hp : urlPasses r.url = true := by
          simp [urlPasses, h, hf.1, hf.2]
        simp [hp, h, hf, ih]
      · have hp : urlPasses r.url = false := by
          by_cases hA : u.protocol = "file:"
          · have hB : includesSubstr u.pathname "node_modules" = true := by
              cases hB : includesSubstr u.pathname "node_modules"
              · exact absurd ⟨hA, hB⟩ hf
              · rfl
            simp [urlPasses, h, hB]
          · simp [urlPasses, h, hA]
        simp [hp, h, hf, ih]

/-- C2: the testKey of a successful collectCoverage result is the
relative path of the test file with respect to the working directory,
then two colons, then the test name unchanged, then the run suffix. -/
theorem claim2_testKey (cwd wd testFile testName : String)
    (snap : List V8ScriptCoverage) (res : TestCoverage)
    (h : collectCoverage cwd wd testFile testName snap = Except.ok res) :
    res.testKey = nodeRelative cwd wd testFile ++ "::" ++ testName ++ "|run" := by
  unfold collectCoverage at h
  cases hc : coveredFiles cwd wd snap with
  | error e => rw [hc] at h; exact absurd h (by simp [Except.map])
  | ok files =>
    rw [hc] at h
    simp only [Except.map, Except.ok.injEq] at h
    rw [← h]
    rfl

/-- C2 witness: the theorem applied to a concrete run on the empty
snapshot. -/
theorem claim2_testKey_witness :
    (⟨"foo.ts::t|run", []⟩ : TestCoverage).testKey =
      nodeRelative "/" "/repo" "/repo/foo.ts" ++ "::" ++ "t" ++ "|run" :=
  claim2_testKey "/" "/repo" "/repo/foo.ts" "t" [] ⟨"foo.ts::t|run", []⟩ (by decide)

/-- C3: coveredFiles is a homomorphism for snapshot concatenation and
acts on single records by converting the url relative to the working
directory when the filter passes; together these determine that entries
keep the relative order of their originating records and that no
sorting or deduplication is applied, duplicates included. -/
theorem claim3_order_no_dedup (cwd wd : String) :
    (∀ s₁ s₂ : List V8ScriptCoverage,
      coveredFiles cwd wd (s₁ ++ s₂) =
        (coveredFiles cwd wd s₁).bind
          (fun a => (coveredFiles cwd wd s₂).map (fun b => a ++ b))) ∧
    (∀ r : V8ScriptCoverage,
      coveredFiles cwd wd [r] =
        if urlPasses r.url then
          (fileURLToPath r.url).map (fun p => [nodeRelative cwd wd p])
        else Except.ok []) := by
  constructor
  · exact coveredFiles_append cwd wd
  · intro r
    rw [coveredFiles_cons]
    by_cases h : urlPasses r.url
    · rw [if_pos h, if_pos h]
      cases fileURLToPath r.url <;>
        simp [coveredFiles, mapExcept, Except.bind, Except.map]
    · rw [if_neg h, if_neg h]; rfl

/-- C4: a successful collectCoverage result of the documented copy is
exactly the record whose object view has the two properties testKey,
holding the testKey string, and coveredFiles, holding the converted
file list, in the shape of the public TestCoverage interface. -/
theorem claim4_result_shape (cwd wd testFile testName : String)
    (snap : List V8ScriptCoverage) (res : TestCoverage)
    (h : collectCoverage cwd wd testFile testName snap = Except.ok res) :
    ∃ files : List String,
      coveredFiles cwd wd snap = Except.ok files ∧
      jsOfTestCoverage res =
        [("testKey", JsValue.str (testKey cwd wd testFile testName)),
         ("coveredFiles", JsValue.arr files)] := by
  unfold collectCoverage at h
  cases hc : coveredFiles cwd wd snap with
  | error e => rw [hc] at h; exact absurd h (by simp [Except.map])
  | ok files =>
    rw [hc] at h
    simp only [Except.map, Except.ok.injEq] at h
    exact ⟨files, rfl, by rw [← h]; rfl⟩

/-- C4 witness: the theorem applied to a concrete run on a one-record
snapshot. -/
theorem claim4_result_shape_witness :
    ∃ files : List String,
      coveredFiles "/" "/repo" [⟨"1", "file:///repo/a.ts", []⟩] =
        Except.ok files ∧
      jsOfTestCoverage ⟨"foo.ts::t|run", ["a.ts"]⟩ =
        [("testKey", JsValue.str (testKey "/" "/repo" "/repo/foo.ts" "t")),
         ("coveredFiles", JsValue.arr files)] :=
  claim4_result_shape "/" "/repo" "/repo/foo.ts" "t"
    [⟨"1", "file:///repo/a.ts", []⟩] ⟨"foo.ts::t|run", ["a.ts"]⟩ (by decide)

/-- C5: a record whose url the URL parser cannot parse is silently
dropped: collectCoverage on any snapshot containing it returns exactly
what it returns on the snapshot with the record removed, so such a
record never causes an error. -/
theorem claim5_unparseable_skip (cwd wd testFile testName : String)
    (s₁ s₂ : List V8ScriptCoverage) (r : V8ScriptCoverage)
    (h : URL.canParseModel r.url = false) :
    collectCoverage cwd wd testFile testName (s₁ ++ r :: s₂) =
      collectCoverage cwd wd testFile testName (s₁ ++ s₂) := by
  have hp : urlPasses r.url = false := by
    unfold URL.canParseModel at h
    unfold urlPasses
    cases hm : URL.parseModel r.url
    · rfl
    · rw [hm] at h; exact absurd h (by simp)
  unfold collectCoverage
  congr 1
  unfold coveredFiles
  congr 1
  rw [List.map_append, List.map_append, List.map_cons,
      List.filter_append, List.filter_append, List.filter_cons, hp]
  simp

/-- C5 witness: the theorem applied to a concrete snapshot containing a
plain filesystem path, which is not a parseable URI. -/
theorem claim5_unparseable_skip_witness :
    collectCoverage "/" "/repo" "/repo/foo.ts" "t"
        ([⟨"1", "file:///repo/a.ts", []⟩] ++ ⟨"9", "/plain/index.js", []⟩ :: []) =
      collectCoverage "/" "/repo" "/repo/foo.ts" "t"
        ([⟨"1", "file:///repo/a.ts", []⟩] ++ []) :=
  claim5_unparseable_skip "/" "/repo" "/repo/foo.ts" "t"
    [⟨"1", "file:///repo/a.ts", []⟩] [] ⟨"9", "/plain/index.js", []⟩ (by decide)

/-- C6 counterexample: a passing record whose file path is the parent
of the working directory produces the entry consisting of two dots
alone, which does not begin with the three characters dot dot slash, so
the entry is not expressed as a slash-terminated-dot-dot-prefixed path
as the claim states. -/
theorem claim6_dotdot_cex :
    urlPasses "file:///repo" = true ∧
    outsideWd "/" "/repo/src" "/repo" = true ∧
    coveredFiles "/" "/repo/src" [⟨"1", "file:///repo", []⟩] =
      Except.ok [".."] ∧
    strLeads ".." "../" = false := by
  exact ⟨by decide, by decide, by decide, by decide⟩

/-- C6 amended: a record passing the filter whose converted file path
lies outside the working directory tree still contributes its entry to
coveredFiles in place, and that entry is either the double dot alone or
begins with a double dot and a slash. -/
theorem claim6_outside_entries (cwd wd : String)
    (s₁ s₂ : List V8ScriptCoverage) (r : V8ScriptCoverage) (p : String)
    (fs₁ fs₂ : List String)
    (hpass : urlPasses r.url = true)
    (hconv : fileURLToPath r.url = Except.ok p)
    (hout : outsideWd cwd wd p = true)
    (h₁ : coveredFiles cwd wd s₁ = Except.ok fs₁)
    (h₂ : coveredFiles cwd wd s₂ = Except.ok fs₂) :
    coveredFiles cwd wd (s₁ ++ r :: s₂) =
      Except.ok (fs₁ ++ nodeRelative cwd wd p :: fs₂) ∧
    (nodeRelative cwd wd p = ".." ∨
      strLeads (nodeRelative cwd wd p) "../" = true) := by
  constructor
  · rw [coveredFiles_append, h₁, coveredFiles_cons, if_pos hpass, hconv, h₂]
    simp [Except.bind, Except.map]
  · exact relative_outside cwd wd p hout

/-- C6 witness: the theorem applied to a concrete record outside the
working directory, whose entry climbs out of the tree. -/
theorem claim6_outside_entries_witness :
    coveredFiles "/" "/repo/src" ([] ++ ⟨"2", "file:///repo/lib.js", []⟩ :: []) =
      Except.ok ([] ++ nodeRelative "/" "/repo/src" "/repo/lib.js" :: []) ∧
    (nodeRelative "/" "/repo/src" "/repo/lib.js" = ".." ∨
      strLeads (nodeRelative "/" "/repo/src" "/repo/lib.js") "../" = true) :=
  claim6_outside_entries "/" "/repo/src" [] [] ⟨"2", "file:///repo/lib.js", []⟩
    "/repo/lib.js" [] [] (by decide) (by decide) (by decide) (by decide) (by decide)
